import Mathlib

/-!
Verification of the 7Semi SCD4x Arduino driver (protocol codec layer).

The definitions below are a shallow embedding of `7Semi_SCD4x.cpp`
(class `SCD4x_7Semi`): machine bytes and 16-bit words are `Nat` with
explicit `% 256` / masking where the C code casts, `float` conversions
are idealised as exact rationals (`ℚ`), and the I2C transport
(`TwoWire`) is modelled as an oracle structure `Bus` together with an
explicit driver-visible transport state `St` that records a trace of
transport/timing actions.
-/

namespace SCD4x

/-! ## CRC-8 engine, from `SCD4x_7Semi::crc8` -/

/-- One iteration of the inner loop of `SCD4x_7Semi::crc8`:
`crc = (crc & 0x80) ? (uint8_t)((crc << 1) ^ 0x31) : (uint8_t)(crc << 1)`. -/
def crcStep (c : Nat) : Nat :=
  if c &&& 0x80 ≠ 0 then ((c <<< 1) ^^^ 0x31) % 256 else (c <<< 1) % 256

/-- `n` iterations of `crcStep` (the source runs the loop 8 times per byte). -/
def crcN : Nat → Nat → Nat
  | 0, c => c
  | n + 1, c => crcN n (crcStep c)

/-- `SCD4x_7Semi::crc8`: seed `0xFF`, xor in `b0`, 8 rounds, xor in `b1`,
8 rounds. -/
def crc8 (b0 b1 : Nat) : Nat :=
  crcN 8 (crcN 8 (0xFF ^^^ b0) ^^^ b1)

/-- Explicit inverse of `crcStep` on bytes, used to prove injectivity. -/
def crcStepInv (y : Nat) : Nat :=
  if y % 2 = 1 then 0x80 + ((y ^^^ 0x31) >>> 1) else y >>> 1

theorem crcStep_lt (c : Nat) : crcStep c < 256 := by
  unfold crcStep
  split <;> exact Nat.mod_lt _ (by decide)

theorem crcN_lt : ∀ n c, crcN (n + 1) c < 256 := by
  intro n
  induction n with
  | zero => intro c; simpa [crcN] using crcStep_lt c
  | succ m ih => intro c; exact ih (crcStep c)

set_option maxRecDepth 4000 in
theorem crcStepInv_crcStep : ∀ c : Fin 256, crcStepInv (crcStep c.val) = c.val := by
  decide

theorem crcStep_inj {c d : Nat} (hc : c < 256) (hd : d < 256)
    (h : crcStep c = crcStep d) : c = d := by
  have h1 := crcStepInv_crcStep ⟨c, hc⟩
  have h2 := crcStepInv_crcStep ⟨d, hd⟩
  simp only at h1 h2
  rw [← h1, ← h2, h]

theorem crcN_inj : ∀ n {c d : Nat}, c < 256 → d < 256 →
    crcN n c = crcN n d → c = d := by
  intro n
  induction n with
  | zero => intro c d _ _ h; simpa [crcN] using h
  | succ m ih =>
    intro c d hc hd h
    simp only [crcN] at h
    exact crcStep_inj hc hd (ih (crcStep_lt c) (crcStep_lt d) h)

theorem xor_lt_256 {a b : Nat} (ha : a < 256) (hb : b < 256) : a ^^^ b < 256 :=
  Nat.xor_lt_two_pow (n := 8) ha hb

theorem crc8_lt (b0 b1 : Nat) : crc8 b0 b1 < 256 := by
  unfold crc8
  exact crcN_lt 7 _

/-- `crc8` is injective in its first argument (on bytes). -/
theorem crc8_inj_left {b0 b0' b1 : Nat} (h0 : b0 < 256) (h0' : b0' < 256)
    (h1 : b1 < 256) (h : crc8 b0 b1 = crc8 b0' b1) : b0 = b0' := by
  unfold crc8 at h
  have hx : (0xFF : Nat) ^^^ b0 < 256 := xor_lt_256 (by decide) h0
  have hx' : (0xFF : Nat) ^^^ b0' < 256 := xor_lt_256 (by decide) h0'
  have hy : crcN 8 (0xFF ^^^ b0) < 256 := crcN_lt 7 _
  have hy' : crcN 8 (0xFF ^^^ b0') < 256 := crcN_lt 7 _
  have h2 := crcN_inj 8 (xor_lt_256 hy h1) (xor_lt_256 hy' h1) h
  have h3 := Nat.xor_left_inj.mp h2
  have h4 := crcN_inj 8 hx hx' h3
  exact Nat.xor_right_inj.mp h4

/-- `crc8` is injective in its second argument (on bytes). -/
theorem crc8_inj_right {b0 b1 b1' : Nat} (h1 : b1 < 256)
    (h1' : b1' < 256) (h : crc8 b0 b1 = crc8 b0 b1') : b1 = b1' := by
  unfold crc8 at h
  have hy : crcN 8 (0xFF ^^^ b0) < 256 := crcN_lt 7 _
  have h2 := crcN_inj 8 (xor_lt_256 hy h1) (xor_lt_256 hy h1') h
  exact Nat.xor_right_inj.mp h2

/-! ## Word + CRC groups, from `SCD4x_7Semi::checkCrc` and `txCommand` -/

/-- `SCD4x_7Semi::checkCrc`: parse a 3-byte group `[MSB, LSB, CRC]`; the C
function returns `false` on mismatch and writes the word only on success,
embedded here as `Option`. -/
def checkCrc (b0 b1 c : Nat) : Option Nat :=
  if crc8 b0 b1 = c then some ((b0 <<< 8) ||| b1) else none

/-- A word's on-wire 3-byte group as emitted by `SCD4x_7Semi::txCommand`:
`uint8_t(w >> 8)`, `uint8_t(w & 0xFF)`, and their CRC. -/
def encodeWord (w : Nat) : List Nat :=
  [(w >>> 8) % 256, w &&& 0xFF, crc8 ((w >>> 8) % 256) (w &&& 0xFF)]

/-- Decode a 3-byte group through `checkCrc`. -/
def decodeGroup (g : List Nat) : Option Nat :=
  checkCrc (g.getD 0 0) (g.getD 1 0) (g.getD 2 0)

/-- Flip bit `i` (of 24) in a 3-byte group: bit `i % 8` of byte `i / 8`. -/
def flipBit (g : List Nat) (i : Nat) : List Nat :=
  g.set (i / 8) (g.getD (i / 8) 0 ^^^ (1 <<< (i % 8)))

theorem and_255_eq_mod (w : Nat) : w &&& 0xFF = w % 256 := by
  have h := Nat.and_pow_two_sub_one_eq_mod w 8
  norm_num at h
  exact h

theorem shift_or_eq (a b : Nat) (hb : b < 256) : (a <<< 8) ||| b = a * 256 + b := by
  have h := Nat.mul_add_lt_is_or (i := 8) (b := b) (by simpa using hb) a
  rw [Nat.shiftLeft_eq, Nat.mul_comm a, ← h, Nat.mul_comm]

theorem decode_encode (w : Nat) (hw : w < 65536) :
    decodeGroup (encodeWord w) = some w := by
  have hb1lt : w &&& 0xFF < 256 := by
    rw [and_255_eq_mod]; exact Nat.mod_lt _ (by decide)
  simp only [decodeGroup, encodeWord, List.getD_cons_zero, List.getD_cons_succ,
    checkCrc, eq_self_iff_true, if_true]
  congr 1
  rw [shift_or_eq _ _ hb1lt, and_255_eq_mod, Nat.shiftRight_eq_div_pow]
  have h28 : (2:ℕ) ^ 8 = 256 := by norm_num
  rw [h28]
  omega

theorem decode_flip (w i : Nat) (hw : w < 65536) (hi : i < 24) :
    decodeGroup (flipBit (encodeWord w) i) = none := by
  have hb0 : (w >>> 8) % 256 < 256 := Nat.mod_lt _ (by decide)
  have hb1 : w &&& 0xFF < 256 := by
    rw [and_255_eq_mod]; exact Nat.mod_lt _ (by decide)
  have hm : (1 <<< (i % 8)) = 2 ^ (i % 8) := by
    rw [Nat.shiftLeft_eq, Nat.one_mul]
  have hmlt : (1 <<< (i % 8)) < 256 := by
    have h2 : 2 ^ (i % 8) ≤ 2 ^ 7 := Nat.pow_le_pow_right (by decide) (by omega)
    omega
  have hmne : (1 <<< (i % 8)) ≠ 0 := by
    rw [hm]; exact (pow_pos (by decide : (0:ℕ) < 2) _).ne'
  have hcase : i / 8 = 0 ∨ i / 8 = 1 ∨ i / 8 = 2 := by omega
  rcases hcase with h | h | h <;>
    simp only [flipBit, h, encodeWord, List.getD_cons_zero, List.getD_cons_succ,
      List.set, decodeGroup, checkCrc]
  · -- bit of the data MSB flipped
    rw [if_neg]
    intro hEq
    have h2 := crc8_inj_left (xor_lt_256 hb0 hmlt) hb0 hb1 hEq
    have h3 : (w >>> 8) % 256 ^^^ (1 <<< (i % 8)) = (w >>> 8) % 256 ^^^ 0 := by
      simpa [Nat.xor_zero] using h2
    exact hmne (Nat.xor_right_inj.mp h3)
  · -- bit of the data LSB flipped
    rw [if_neg]
    intro hEq
    have h2 := crc8_inj_right (xor_lt_256 hb1 hmlt) hb1 hEq
    have h3 : w &&& 0xFF ^^^ (1 <<< (i % 8)) = w &&& 0xFF ^^^ 0 := by
      simpa [Nat.xor_zero] using h2
    exact hmne (Nat.xor_right_inj.mp h3)
  · -- bit of the CRC byte flipped
    rw [if_neg]
    intro hEq
    have h3 : crc8 ((w >>> 8) % 256) (w &&& 0xFF) ^^^ 0
        = crc8 ((w >>> 8) % 256) (w &&& 0xFF) ^^^ (1 <<< (i % 8)) := by
      simpa [Nat.xor_zero] using hEq
    exact hmne (Nat.xor_right_inj.mp h3).symm

/-- C2: encoding a 16-bit word as `[MSB, LSB, crc8 MSB LSB]` and decoding via
`checkCrc` returns the word; flipping any single one of the 24 bits of the
3-byte group makes the decode fail. -/
theorem word_crc_roundtrip_bitflip (w i : Nat) (hw : w < 65536) (hi : i < 24) :
    decodeGroup (encodeWord w) = some w ∧
      decodeGroup (flipBit (encodeWord w) i) = none :=
  ⟨decode_encode w hw, decode_flip w i hw hi⟩

/-- Witness for C2 at `w = 0xBEEF`, bit 23. -/
theorem word_crc_roundtrip_bitflip_witness :
    (0xBEEF : Nat) < 65536 ∧ (23 : Nat) < 24 ∧
      (decodeGroup (encodeWord 0xBEEF) = some 0xBEEF ∧
        decodeGroup (flipBit (encodeWord 0xBEEF) 23) = none) :=
  ⟨by decide, by decide, word_crc_roundtrip_bitflip 0xBEEF 23 (by decide) (by decide)⟩

/-- C1: `crc8` implements the Sensirion CRC-8 (poly 0x31, init 0xFF) as a
deterministic, total, pure function over all byte pairs — in particular it
always produces a byte — and `crc8 0xBE 0xEF = 0x92`, the Sensirion
reference test vector. -/
theorem crc8_sensirion_spec :
    (∀ b0 b1 : Nat, crc8 b0 b1 < 256) ∧ crc8 0xBE 0xEF = 0x92 :=
  ⟨fun b0 b1 => crc8_lt b0 b1, by decide⟩

/-! ## Transport model

`Bus` is the oracle for the `TwoWire` transport: the result of each
`endTransmission`, the `available()` byte count as a function of elapsed
milliseconds, and the byte stream served by `read()`.  `St` is the
driver-visible transport state, including a trace of actions. -/

/-- One observable transport/timing action of the driver. -/
inductive Ev where
  /-- `i2c->write(b)` -/
  | wr (b : Nat)
  /-- `delay(ms)` -/
  | d (ms : Nat)
  /-- `i2c->requestFrom(address, n)` -/
  | req (n : Nat)
  /-- `i2c->read()` -/
  | rd
  deriving DecidableEq

/-- Oracle for the I2C transport (`TwoWire`). -/
structure Bus where
  /-- Result of `endTransmission()` for the k-th transaction (0 = success). -/
  endRes : Nat → Nat
  /-- `available()` as a function of elapsed time in ms. -/
  avail : Nat → Nat
  /-- Bytes served by successive `read()` calls. -/
  stream : List Nat

/-- Driver-visible transport state. -/
structure St where
  /-- Completed transactions. -/
  tx : Nat
  /-- Elapsed time in ms. -/
  time : Nat
  /-- Index of the next byte `read()` will return. -/
  pos : Nat
  /-- Trace of transport/timing actions so far. -/
  evs : List Ev

/-- `i2c->write(b)`. -/
def wrB (st : St) (b : Nat) : St :=
  { st with evs := st.evs ++ [Ev.wr b] }

/-- `delay(n)`. -/
def delayMs (st : St) (n : Nat) : St :=
  { st with time := st.time + n, evs := st.evs ++ [Ev.d n] }

/-- `i2c->requestFrom(address, n)`. -/
def reqFrom (st : St) (n : Nat) : St :=
  { st with evs := st.evs ++ [Ev.req n] }

/-- `i2c->read()`. -/
def rdB (bus : Bus) (st : St) : Nat × St :=
  (bus.stream.getD st.pos 0,
    { st with pos := st.pos + 1, evs := st.evs ++ [Ev.rd] })

/-- `i2c->endTransmission()`. -/
def endTx (bus : Bus) (st : St) : Nat × St :=
  (bus.endRes st.tx, { st with tx := st.tx + 1 })

/-- Payload loop of `SCD4x_7Semi::txCommand`: per word, write data MSB,
data LSB, then their CRC. -/
def txWords (st : St) (ws : List Nat) : St :=
  ws.foldl (fun s w =>
    let b0 := (w >>> 8) % 256
    let b1 := w &&& 0xFF
    wrB (wrB (wrB s b0) b1) (crc8 b0 b1)) st

/-- `SCD4x_7Semi::txCommand`: command MSB, command LSB, payload words each
followed by CRC, then `endTransmission() == 0`. -/
def txCommand (bus : Bus) (st : St) (cmd : Nat) (ws : List Nat) : Bool × St :=
  let st := wrB st ((cmd >>> 8) % 256)
  let st := wrB st (cmd &&& 0xFF)
  let st := txWords st ws
  let (r, st) := endTx bus st
  (r == 0, st)

/-- `SCD4x_7Semi::sendCommand`: command without payload. -/
def sendCommand (bus : Bus) (st : St) (cmd : Nat) : Bool × St :=
  txCommand bus st cmd []

/-- `SCD4x_7Semi::writeCommand`: command with payload words. -/
def writeCommand (bus : Bus) (st : St) (cmd : Nat) (ws : List Nat) : Bool × St :=
  txCommand bus st cmd ws

/-- The wire bytes `txCommand` emits for one payload word. -/
def wordEvs (w : Nat) : List Ev :=
  [Ev.wr ((w >>> 8) % 256), Ev.wr (w &&& 0xFF),
    Ev.wr (crc8 ((w >>> 8) % 256) (w &&& 0xFF))]

theorem txWords_evs (ws : List Nat) : ∀ st : St,
    txWords st ws = { st with evs := st.evs ++ (ws.map wordEvs).flatten } := by
  induction ws with
  | nil => intro st; simp [txWords]
  | cons w ws ih =>
    intro st
    simp only [txWords, List.foldl_cons] at *
    rw [ih]
    simp [wrB, wordEvs, List.append_assoc]

/-- C8: `txCommand` writes exactly the command MSB, command LSB, then for
each payload word in order its data MSB, data LSB and CRC-8; it succeeds
exactly when `endTransmission` reports success for this (single, unretried)
transaction; and it performs no delays, reads or byte requests. -/
theorem txCommand_framing (bus : Bus) (st : St) (cmd : Nat) (ws : List Nat) :
    (txCommand bus st cmd ws).2.evs
        = st.evs ++ Ev.wr ((cmd >>> 8) % 256) :: Ev.wr (cmd &&& 0xFF)
            :: (ws.map wordEvs).flatten
      ∧ ((txCommand bus st cmd ws).1 = true ↔ bus.endRes st.tx = 0)
      ∧ (txCommand bus st cmd ws).2.tx = st.tx + 1
      ∧ (txCommand bus st cmd ws).2.pos = st.pos
      ∧ (txCommand bus st cmd ws).2.time = st.time := by
  refine ⟨?_, ?_, ?_, ?_, ?_⟩ <;>
    simp [txCommand, endTx, txWords_evs, wrB, beq_iff_eq]

/-! ## Read path, from `SCD4x_7Semi::readNData` and friends -/

/-- The bounded-wait poll of `readNData`:
`while (avail < nbytes) { if (millis() - t0 > 100) return false; delay(1); }`.
`fuel` is a structural bound; `readNData` supplies `102`, which the 100 ms
timeout check never exhausts. -/
def pollLoop (bus : Bus) (nbytes t0 : Nat) : Nat → St → Bool × St
  | 0, st => (false, st)
  | fuel + 1, st =>
    if bus.avail st.time < nbytes then
      if st.time - t0 > 100 then (false, st)
      else pollLoop bus nbytes t0 fuel (delayMs st 1)
    else (true, st)

/-- The word loop of `readNData`: per word read 2 data bytes and a CRC byte,
abort returning `false` on mismatch, else store the word at index `i` of the
caller's buffer. -/
def rdWords (bus : Bus) : Nat → Nat → List Nat → St → Bool × List Nat × St
  | 0, _, out, st => (true, out, st)
  | nleft + 1, i, out, st =>
    let (b0, st) := rdB bus st
    let (b1, st) := rdB bus st
    let (c, st) := rdB bus st
    if crc8 b0 b1 = c then
      rdWords bus nleft (i + 1) (out.set i ((b0 <<< 8) ||| b1)) st
    else (false, out, st)

/-- Tail of `SCD4x_7Semi::readNData` after the command send and the 1 ms
settle + `requestFrom`: poll with the 100 ms timeout, then validate and
store each word. -/
def readNBody (bus : Bus) (st1 : St) (out : List Nat) (nwords : Nat) :
    Bool × List Nat × St :=
  let p := pollLoop bus (nwords * 3) st1.time 102 st1
  if !p.1 then (false, out, p.2)
  else rdWords bus nwords 0 out p.2

/-- `SCD4x_7Semi::readNData`: send command, settle 1 ms, request
`nwords * 3` bytes, poll with 100 ms timeout, then validate and store each
word.  `out` is the caller-supplied buffer. -/
def readNData (bus : Bus) (st : St) (cmd : Nat) (out : List Nat)
    (nwords : Nat) : Bool × List Nat × St :=
  let s := sendCommand bus st cmd
  if !s.1 then (false, out, s.2)
  else readNBody bus (reqFrom (delayMs s.2 1) (nwords * 3)) out nwords

/-- Read `n` raw bytes (the `raw[i] = i2c->read()` loops of
`readMeasurement` and `readSerialNumber`). -/
def rdN (bus : Bus) : Nat → St → List Nat × St
  | 0, st => ([], st)
  | n + 1, st =>
    let (b, st) := rdB bus st
    let (bs, st) := rdN bus n st
    (b :: bs, st)

/-! ## Unit conversions (float arithmetic idealised as `ℚ`) -/

/-- `temp_c = -45.0f + 175.0f * t_raw / 65535.0f` from `readMeasurement`. -/
def tempFromRaw (t_raw : Nat) : ℚ :=
  -45 + 175 * (t_raw : ℚ) / 65535

/-- `rh_percent = 100.0f * rh_raw / 65535.0f` from `readMeasurement`. -/
def rhFromRaw (rh_raw : Nat) : ℚ :=
  100 * (rh_raw : ℚ) / 65535

/-- Truncation toward zero of a rational, the behaviour of a C float-to-
integer cast (`Int.tdiv` is truncated division). -/
def ratTrunc (q : ℚ) : Int :=
  q.num.tdiv (q.den : Int)

/-- `uint16_t raw = (uint16_t)((degC / 175.0f) * 65535.0f)` from
`setTemperatureOffset`; the out-of-range (negative) cast is modelled as the
two's-complement wrap `% 2^16`. -/
def encodeOffsetRaw (degC : ℚ) : Nat :=
  ((ratTrunc (degC / 175 * 65535)).emod 65536).toNat

/-- `degC = 175.0f * raw / 65535.0f` from `getTemperatureOffset`. -/
def decodeOffset (raw : Nat) : ℚ :=
  175 * (raw : ℚ) / 65535

/-! ## Driver operations -/

/-- Command opcodes.  Modelled from the spec: the header defining the
`*_CMD_ID` constants is not among the sources; the values are the Sensirion
SCD4x opcodes (the source comments note `STOP_PERIODIC_MEASUREMENT_CMD_ID`
is `0x3F86`).  No verified property depends on a particular value. -/
def READ_MEASUREMENT_RAW_CMD_ID : Nat := 0xEC05

/-- Modelled from the spec: see `READ_MEASUREMENT_RAW_CMD_ID`. -/
def GET_SERIAL_NUMBER_CMD_ID : Nat := 0x3682

/-- Modelled from the spec: see `READ_MEASUREMENT_RAW_CMD_ID`. -/
def PERFORM_SELF_TEST_CMD_ID : Nat := 0x3639

/-- Modelled from the spec: see `READ_MEASUREMENT_RAW_CMD_ID`. -/
def PERFORM_FORCED_RECALIBRATION_CMD_ID : Nat := 0x362F

/-- Modelled from the spec: see `READ_MEASUREMENT_RAW_CMD_ID`. -/
def SET_TEMPERATURE_OFFSET_RAW_CMD_ID : Nat := 0x241D

/-- Modelled from the spec: see `READ_MEASUREMENT_RAW_CMD_ID`. -/
def GET_TEMPERATURE_OFFSET_RAW_CMD_ID : Nat := 0x2318

/-- `SCD4x_7Semi::readMeasurement`.  `co2_ppm`, `temp_c`, `rh_percent` are
the caller's output parameters, passed in so that the failure paths return
them untouched, exactly as the C code leaves the references unassigned. -/
def readMeasurement (bus : Bus) (st : St) (co2_ppm : Nat) (temp_c : ℚ)
    (rh_percent : ℚ) : Bool × Nat × ℚ × ℚ × St :=
  let s := sendCommand bus st READ_MEASUREMENT_RAW_CMD_ID
  if !s.1 then (false, co2_ppm, temp_c, rh_percent, s.2)
  else
    let st1 := reqFrom (delayMs s.2 5) 9
    if bus.avail st1.time < 9 then (false, co2_ppm, temp_c, rh_percent, st1)
    else
      let r := rdN bus 9 st1
      match checkCrc (r.1.getD 0 0) (r.1.getD 1 0) (r.1.getD 2 0),
          checkCrc (r.1.getD 3 0) (r.1.getD 4 0) (r.1.getD 5 0),
          checkCrc (r.1.getD 6 0) (r.1.getD 7 0) (r.1.getD 8 0) with
      | some co2_raw, some t_raw, some rh_raw =>
        (true, co2_raw, tempFromRaw t_raw, rhFromRaw rh_raw, r.2)
      | _, _, _ => (false, co2_ppm, temp_c, rh_percent, r.2)

/-- `SCD4x_7Semi::readSerialNumber`.  `sn0` is the caller's output
parameter, untouched on failure. -/
def readSerialNumber (bus : Bus) (st : St) (sn0 : Nat) : Bool × Nat × St :=
  let s := sendCommand bus st GET_SERIAL_NUMBER_CMD_ID
  if !s.1 then (false, sn0, s.2)
  else
    let st1 := reqFrom (delayMs s.2 5) 9
    if bus.avail st1.time < 9 then (false, sn0, st1)
    else
      let r := rdN bus 9 st1
      match checkCrc (r.1.getD 0 0) (r.1.getD 1 0) (r.1.getD 2 0),
          checkCrc (r.1.getD 3 0) (r.1.getD 4 0) (r.1.getD 5 0),
          checkCrc (r.1.getD 6 0) (r.1.getD 7 0) (r.1.getD 8 0) with
      | some w0, some w1, some w2 =>
        (true, (w0 <<< 32) ||| (w1 <<< 16) ||| w2, r.2)
      | _, _, _ => (false, sn0, r.2)

/-- `SCD4x_7Semi::setTemperatureOffset`. -/
def setTemperatureOffset (bus : Bus) (st : St) (degC : ℚ) : Bool × St :=
  writeCommand bus st SET_TEMPERATURE_OFFSET_RAW_CMD_ID [encodeOffsetRaw degC]

/-- `SCD4x_7Semi::getTemperatureOffset`.  `deg0` is the caller's output
parameter, untouched on failure. -/
def getTemperatureOffset (bus : Bus) (st : St) (deg0 : ℚ) : Bool × ℚ × St :=
  let r := readNData bus st GET_TEMPERATURE_OFFSET_RAW_CMD_ID [0] 1
  if r.1 then (true, decodeOffset (r.2.1.getD 0 0), r.2.2) else (false, deg0, r.2.2)

/-- `SCD4x_7Semi::performSelfTest`: a plain `readNData` of one word, with
the caller's `status_word` as the buffer. -/
def performSelfTest (bus : Bus) (st : St) (sw0 : Nat) : Bool × Nat × St :=
  let r := readNData bus st PERFORM_SELF_TEST_CMD_ID [sw0] 1
  (r.1, r.2.1.getD 0 sw0, r.2.2)

/-- `SCD4x_7Semi::performForcedRecalibration`: write the reference word;
then, only when the caller passed a result pointer (`wantResult`),
`delay(500)` and read the result word back. -/
def performForcedRecalibration (bus : Bus) (st : St) (ref : Nat)
    (wantResult : Bool) (frc0 : Nat) : Bool × Nat × St :=
  let s := writeCommand bus st PERFORM_FORCED_RECALIBRATION_CMD_ID [ref]
  if !s.1 then (false, frc0, s.2)
  else if wantResult then
    let r := readNData bus (delayMs s.2 500) PERFORM_FORCED_RECALIBRATION_CMD_ID [frc0] 1
    if !r.1 then (false, r.2.1.getD 0 frc0, r.2.2)
    else (true, r.2.1.getD 0 frc0, r.2.2)
  else (true, frc0, s.2)


/-! ## Helper lemmas on the transport model -/

theorem sendCommand_eq (bus : Bus) (st : St) (cmd : Nat) :
    sendCommand bus st cmd
      = (bus.endRes st.tx == 0,
          { st with
              tx := st.tx + 1,
              evs := st.evs ++ [Ev.wr ((cmd >>> 8) % 256), Ev.wr (cmd &&& 0xFF)] }) := by
  simp [sendCommand, txCommand, txWords, endTx, wrB]

/-- The poll loop only delays: it leaves `tx` and `pos` alone and appends
delay events, advancing time accordingly. -/
theorem pollLoop_state (bus : Bus) (nbytes t0 : Nat) : ∀ (fuel : Nat) (st : St),
    ∃ b dt tl,
      pollLoop bus nbytes t0 fuel st
        = (b, { st with
                  time := st.time + dt,
                  evs := st.evs ++ tl }) := by
  intro fuel
  induction fuel with
  | zero =>
    intro st
    exact ⟨false, 0, [], by simp [pollLoop]⟩
  | succ m ih =>
    intro st
    simp only [pollLoop]
    by_cases ha : bus.avail st.time < nbytes
    · rw [if_pos ha]
      by_cases ht : st.time - t0 > 100
      · rw [if_pos ht]
        exact ⟨false, 0, [], by simp⟩
      · rw [if_neg ht]
        obtain ⟨b, dt, tl, he⟩ := ih (delayMs st 1)
        refine ⟨b, 1 + dt, Ev.d 1 :: tl, ?_⟩
        rw [he]
        simp [delayMs, Nat.add_assoc]
    · rw [if_neg ha]
      exact ⟨true, 0, [], by simp⟩

/-- If the transport never reports enough bytes, the poll loop fails and
advances time by at most `fuel` milliseconds. -/
theorem pollLoop_never_avail (bus : Bus) (nbytes t0 : Nat)
    (hav : ∀ t, bus.avail t < nbytes) : ∀ (fuel : Nat) (st : St),
    ∃ st', pollLoop bus nbytes t0 fuel st = (false, st')
      ∧ st'.time ≤ st.time + fuel := by
  intro fuel
  induction fuel with
  | zero => intro st; exact ⟨st, rfl, by omega⟩
  | succ m ih =>
    intro st
    simp only [pollLoop, if_pos (hav st.time)]
    by_cases ht : st.time - t0 > 100
    · rw [if_pos ht]
      exact ⟨st, rfl, by omega⟩
    · rw [if_neg ht]
      obtain ⟨st', he, hle⟩ := ih (delayMs st 1)
      refine ⟨st', he, ?_⟩
      simp only [delayMs] at hle
      omega

/-- If the word loop reports success, every one of the `nleft` 3-byte
groups it consumed had a valid CRC. -/
theorem rdWords_true_valid (bus : Bus) : ∀ (nleft i : Nat) (out : List Nat) (st : St),
    (rdWords bus nleft i out st).1 = true →
    ∀ j, j < nleft →
      crc8 (bus.stream.getD (st.pos + 3 * j) 0)
          (bus.stream.getD (st.pos + 3 * j + 1) 0)
        = bus.stream.getD (st.pos + 3 * j + 2) 0 := by
  intro nleft
  induction nleft with
  | zero => intro i out st _ j hj; exact absurd hj (Nat.not_lt_zero j)
  | succ m ih =>
    intro i out st h j hj
    simp only [rdWords, rdB] at h
    by_cases hc : crc8 (bus.stream.getD st.pos 0) (bus.stream.getD (st.pos + 1) 0)
        = bus.stream.getD (st.pos + 1 + 1) 0
    · rw [if_pos hc] at h
      cases j with
      | zero =>
        simpa using hc
      | succ k =>
        have h2 := ih _ _ _ h k (by omega)
        simp only at h2
        have e0 : st.pos + 1 + 1 + 1 + 3 * k = st.pos + 3 * (k + 1) := by ring
        rw [e0] at h2
        exact h2
    · rw [if_neg hc] at h
      exact absurd h (by simp)

theorem rdWords_evs_mono (bus : Bus) : ∀ (nleft i : Nat) (out : List Nat) (st : St),
    ∃ tl, (rdWords bus nleft i out st).2.2.evs = st.evs ++ tl := by
  intro nleft
  induction nleft with
  | zero => intro i out st; exact ⟨[], by simp [rdWords]⟩
  | succ m ih =>
    intro i out st
    simp only [rdWords, rdB]
    split
    · obtain ⟨tl, htl⟩ := ih (i + 1)
        (out.set i (bus.stream.getD st.pos 0 <<< 8 ||| bus.stream.getD (st.pos + 1) 0))
        ⟨st.tx, st.time, st.pos + 1 + 1 + 1, st.evs ++ [Ev.rd] ++ [Ev.rd] ++ [Ev.rd]⟩
      refine ⟨Ev.rd :: Ev.rd :: Ev.rd :: tl, ?_⟩
      rw [htl]
      simp
    · exact ⟨[Ev.rd, Ev.rd, Ev.rd], by simp⟩

/-- If `readNBody` reports success, every one of the `nwords` received
3-byte groups had a valid CRC. -/
theorem readNBody_true_valid (bus : Bus) (st1 : St) (out : List Nat)
    (nwords : Nat) (h : (readNBody bus st1 out nwords).1 = true) :
    ∀ j, j < nwords →
      crc8 (bus.stream.getD (st1.pos + 3 * j) 0)
          (bus.stream.getD (st1.pos + 3 * j + 1) 0)
        = bus.stream.getD (st1.pos + 3 * j + 2) 0 := by
  intro j hj
  obtain ⟨b, dt, tl, he⟩ := pollLoop_state bus (nwords * 3) st1.time 102 st1
  simp only [readNBody, he] at h
  cases b with
  | false => exact absurd h (by simp)
  | true =>
    simp only [Bool.not_true, Bool.false_eq_true, if_false] at h
    have h2 := rdWords_true_valid bus nwords 0 out _ h j hj
    simpa using h2

/-- If `readNData` reports success, every one of the `nwords` received
3-byte groups had a valid CRC. -/
theorem readNData_true_valid (bus : Bus) (st : St) (cmd : Nat) (out : List Nat)
    (nwords : Nat) (h : (readNData bus st cmd out nwords).1 = true) :
    ∀ j, j < nwords →
      crc8 (bus.stream.getD (st.pos + 3 * j) 0)
          (bus.stream.getD (st.pos + 3 * j + 1) 0)
        = bus.stream.getD (st.pos + 3 * j + 2) 0 := by
  intro j hj
  simp only [readNData, sendCommand_eq] at h
  cases hok : bus.endRes st.tx == 0
  · rw [hok] at h
    simp at h
  · rw [hok] at h
    simp only [Bool.not_true, Bool.false_eq_true, if_false] at h
    have h2 := readNBody_true_valid bus _ out nwords h j hj
    simpa [reqFrom, delayMs] using h2

/-- C3 counterexample bus: transport succeeds, 6 bytes available at once,
first word group valid (`BE EF 92`), second corrupted (`00 00 00`; the
correct CRC of `00 00` is `0x81`). -/
def busC3 : Bus :=
  ⟨fun _ => 0, fun _ => 6, [0xBE, 0xEF, 0x92, 0, 0, 0]⟩

/-- Initial transport state. -/
def st0 : St := ⟨0, 0, 0, []⟩

/-- C3 counterexample: a 2-word `readNData` whose second word has a bad CRC
returns failure, yet the caller's buffer (initially `[7, 7]`) is left
holding the word `0xBEEF` from the failed transaction. -/
theorem readNData_partial_write :
    (readNData busC3 st0 0xEC05 [7, 7] 2).1 = false ∧
      (readNData busC3 st0 0xEC05 [7, 7] 2).2.1 = [0xBEEF, 7] ∧
      ([0xBEEF, 7] : List Nat) ≠ [7, 7] := by
  refine ⟨by decide, by decide, by decide⟩

/-- If the transport never has `nwords * 3` bytes available, the tail of
the read fails after the bounded wait. -/
theorem readNBody_timeout (bus : Bus) (st1 : St) (out : List Nat)
    (nwords : Nat) (hav : ∀ t, bus.avail t < nwords * 3) :
    (readNBody bus st1 out nwords).1 = false ∧
      (readNBody bus st1 out nwords).2.2.time ≤ st1.time + 102 ∧
      (readNBody bus st1 out nwords).2.1 = out := by
  obtain ⟨st', he, hle⟩ := pollLoop_never_avail bus (nwords * 3) st1.time hav 102 st1
  simp only [readNBody, he, Bool.not_false, if_true]
  exact ⟨trivial, hle, trivial⟩

/-- C7: if the transport never reports `nwords * 3` available bytes, the
read terminates with failure once the bounded wait elapses — time advances
by at most 103 ms (1 ms settle plus the 100 ms timeout polled at 1 ms
steps) — and the caller's buffer is untouched. -/
theorem readNData_timeout (bus : Bus) (st : St) (cmd : Nat) (out : List Nat)
    (nwords : Nat) (hav : ∀ t, bus.avail t < nwords * 3) :
    (readNData bus st cmd out nwords).1 = false ∧
      (readNData bus st cmd out nwords).2.2.time ≤ st.time + 103 ∧
      (readNData bus st cmd out nwords).2.1 = out := by
  simp only [readNData, sendCommand_eq]
  cases hok : bus.endRes st.tx == 0
  · simp only [Bool.not_false, eq_self_iff_true, if_true]
    exact ⟨trivial, Nat.le_add_right st.time 103, trivial⟩
  · simp only [Bool.not_true, Bool.false_eq_true, if_false]
    have h3 := readNBody_timeout bus
      (reqFrom (delayMs { st with
          tx := st.tx + 1,
          evs := st.evs ++ [Ev.wr ((cmd >>> 8) % 256), Ev.wr (cmd &&& 0xFF)] } 1)
        (nwords * 3)) out nwords hav
    refine ⟨h3.1, ?_, h3.2.2⟩
    have h4 := h3.2.1
    simp only [reqFrom, delayMs] at h4 ⊢
    omega

/-- Witness for C7: a transport that never has any bytes available. -/
theorem readNData_timeout_witness :
    (∀ t, (Bus.mk (fun _ => 0) (fun _ => 0) []).avail t < 1 * 3) ∧
      ((readNData (Bus.mk (fun _ => 0) (fun _ => 0) []) st0 0xE4B8 [0] 1).1 = false ∧
        (readNData (Bus.mk (fun _ => 0) (fun _ => 0) []) st0 0xE4B8 [0] 1).2.2.time
          ≤ st0.time + 103 ∧
        (readNData (Bus.mk (fun _ => 0) (fun _ => 0) []) st0 0xE4B8 [0] 1).2.1 = [0]) :=
  ⟨fun _ => by norm_num,
    readNData_timeout (Bus.mk (fun _ => 0) (fun _ => 0) []) st0 0xE4B8 [0] 1
      (fun _ => by norm_num)⟩

/-- Reading 9 bytes returns the next 9 stream bytes and advances the read
position by 9. -/
theorem rdN9_eq (bus : Bus) (st : St) :
    rdN bus 9 st
      = ([bus.stream.getD st.pos 0, bus.stream.getD (st.pos + 1) 0,
          bus.stream.getD (st.pos + 2) 0, bus.stream.getD (st.pos + 3) 0,
          bus.stream.getD (st.pos + 4) 0, bus.stream.getD (st.pos + 5) 0,
          bus.stream.getD (st.pos + 6) 0, bus.stream.getD (st.pos + 7) 0,
          bus.stream.getD (st.pos + 8) 0],
        { st with
            pos := st.pos + 9,
            evs := st.evs ++ List.replicate 9 Ev.rd }) := by
  simp [rdN, rdB, List.replicate]

/-- C4: when `readMeasurement` succeeds, the returned CO₂ is the raw word
unchanged, the temperature is `-45 + 175 * t_raw / 65535` and the relative
humidity is `100 * rh_raw / 65535` (float arithmetic idealised over `ℚ`);
moreover raw 0 → −45 °C, raw 65535 → 130 °C, raw 32767 is within one LSB of
42.5 °C, and RH raw 0 → 0 %, raw 65535 → 100 %. -/
theorem readMeasurement_conversion (bus : Bus) (st : St) (co2 : Nat) (t rh : ℚ)
    (h : (readMeasurement bus st co2 t rh).1 = true) :
    (∃ co2_raw t_raw rh_raw : Nat,
        checkCrc (bus.stream.getD st.pos 0) (bus.stream.getD (st.pos + 1) 0)
            (bus.stream.getD (st.pos + 2) 0) = some co2_raw ∧
          checkCrc (bus.stream.getD (st.pos + 3) 0) (bus.stream.getD (st.pos + 4) 0)
            (bus.stream.getD (st.pos + 5) 0) = some t_raw ∧
          checkCrc (bus.stream.getD (st.pos + 6) 0) (bus.stream.getD (st.pos + 7) 0)
            (bus.stream.getD (st.pos + 8) 0) = some rh_raw ∧
          (readMeasurement bus st co2 t rh).2.1 = co2_raw ∧
          (readMeasurement bus st co2 t rh).2.2.1
            = -45 + 175 * (t_raw : ℚ) / 65535 ∧
          (readMeasurement bus st co2 t rh).2.2.2.1
            = 100 * (rh_raw : ℚ) / 65535) ∧
      tempFromRaw 0 = -45 ∧ tempFromRaw 65535 = 130 ∧
      |tempFromRaw 32767 - 85 / 2| ≤ 175 / 65535 ∧
      rhFromRaw 0 = 0 ∧ rhFromRaw 65535 = 100 := by
  refine ⟨?_, by norm_num [tempFromRaw], by norm_num [tempFromRaw],
    by rw [abs_le]; constructor <;> norm_num [tempFromRaw],
    by norm_num [rhFromRaw], by norm_num [rhFromRaw]⟩
  simp only [readMeasurement, sendCommand_eq, reqFrom, delayMs, rdN9_eq,
    List.getD_cons_zero, List.getD_cons_succ] at h ⊢
  cases hok : bus.endRes st.tx == 0
  · rw [hok] at h
    simp at h
  · rw [hok] at h
    simp only [Bool.not_true, Bool.false_eq_true, if_false] at h ⊢
    by_cases hav : bus.avail (st.time + 5) < 9
    · rw [if_pos hav] at h
      simp at h
    · rw [if_neg hav] at h ⊢
      rcases hc0 : checkCrc (bus.stream.getD st.pos 0)
          (bus.stream.getD (st.pos + 1) 0) (bus.stream.getD (st.pos + 2) 0)
        with _ | co2r
      · rw [hc0] at h; simp at h
      · rcases hc1 : checkCrc (bus.stream.getD (st.pos + 3) 0)
            (bus.stream.getD (st.pos + 4) 0) (bus.stream.getD (st.pos + 5) 0)
          with _ | tr
        · rw [hc0, hc1] at h; simp at h
        · rcases hc2 : checkCrc (bus.stream.getD (st.pos + 6) 0)
              (bus.stream.getD (st.pos + 7) 0) (bus.stream.getD (st.pos + 8) 0)
            with _ | rhr
          · rw [hc0, hc1, hc2] at h; simp at h
          · exact ⟨co2r, tr, rhr, rfl, rfl, rfl, by simp,
              by simp [tempFromRaw], by simp [rhFromRaw]⟩

/-- Bus delivering one valid frame: three `BE EF 92` word groups. -/
def busOK : Bus :=
  ⟨fun _ => 0, fun _ => 9,
    [0xBE, 0xEF, 0x92, 0xBE, 0xEF, 0x92, 0xBE, 0xEF, 0x92]⟩

/-- Witness for C4 on a concrete successful measurement frame. -/
theorem readMeasurement_conversion_witness :
    (readMeasurement busOK st0 0 0 0).1 = true ∧
      (readMeasurement busOK st0 0 0 0).2.1 = 0xBEEF :=
  ⟨by decide, by
    obtain ⟨⟨co2r, tr, rhr, hc0, hc1, hc2, ho, _, _⟩, _⟩ :=
      readMeasurement_conversion busOK st0 0 0 0 (by decide)
    rw [ho]
    have he : checkCrc (busOK.stream.getD st0.pos 0)
        (busOK.stream.getD (st0.pos + 1) 0)
        (busOK.stream.getD (st0.pos + 2) 0) = some 0xBEEF := by decide
    rw [he] at hc0
    exact (Option.some.inj hc0).symm⟩

/-- C6: when `readSerialNumber` succeeds on three CRC-valid words
`w0, w1, w2`, the returned serial is `(w0 <<< 32) ||| (w1 <<< 16) ||| w2`. -/
theorem readSerialNumber_assembly (bus : Bus) (st : St) (sn0 : Nat)
    (h : (readSerialNumber bus st sn0).1 = true) :
    ∃ w0 w1 w2 : Nat,
      checkCrc (bus.stream.getD st.pos 0) (bus.stream.getD (st.pos + 1) 0)
          (bus.stream.getD (st.pos + 2) 0) = some w0 ∧
        checkCrc (bus.stream.getD (st.pos + 3) 0) (bus.stream.getD (st.pos + 4) 0)
          (bus.stream.getD (st.pos + 5) 0) = some w1 ∧
        checkCrc (bus.stream.getD (st.pos + 6) 0) (bus.stream.getD (st.pos + 7) 0)
          (bus.stream.getD (st.pos + 8) 0) = some w2 ∧
        (readSerialNumber bus st sn0).2.1 = (w0 <<< 32) ||| (w1 <<< 16) ||| w2 := by
  simp only [readSerialNumber, sendCommand_eq, reqFrom, delayMs, rdN9_eq,
    List.getD_cons_zero, List.getD_cons_succ] at h ⊢
  cases hok : bus.endRes st.tx == 0
  · rw [hok] at h
    simp at h
  · rw [hok] at h
    simp only [Bool.not_true, Bool.false_eq_true, if_false] at h ⊢
    by_cases hav : bus.avail (st.time + 5) < 9
    · rw [if_pos hav] at h
      simp at h
    · rw [if_neg hav] at h ⊢
      rcases hc0 : checkCrc (bus.stream.getD st.pos 0)
          (bus.stream.getD (st.pos + 1) 0) (bus.stream.getD (st.pos + 2) 0)
        with _ | w0
      · rw [hc0] at h; simp at h
      · rcases hc1 : checkCrc (bus.stream.getD (st.pos + 3) 0)
            (bus.stream.getD (st.pos + 4) 0) (bus.stream.getD (st.pos + 5) 0)
          with _ | w1
        · rw [hc0, hc1] at h; simp at h
        · rcases hc2 : checkCrc (bus.stream.getD (st.pos + 6) 0)
              (bus.stream.getD (st.pos + 7) 0) (bus.stream.getD (st.pos + 8) 0)
            with _ | w2
          · rw [hc0, hc1, hc2] at h; simp at h
          · exact ⟨w0, w1, w2, rfl, rfl, rfl, by simp⟩

/-- Bus delivering the serial-number frame for `0x1234 0x5678 0x9ABC`
(CRCs `0x37`, `0x7D`, `0xE0`). -/
def busSN : Bus :=
  ⟨fun _ => 0, fun _ => 9,
    [0x12, 0x34, 0x37, 0x56, 0x78, 0x7D, 0x9A, 0xBC, 0xE0]⟩

/-- Witness for C6: words `0x1234 0x5678 0x9ABC` assemble to
`0x123456789ABC`. -/
theorem readSerialNumber_assembly_witness :
    (readSerialNumber busSN st0 0).1 = true ∧
      (readSerialNumber busSN st0 0).2.1 = 0x123456789ABC :=
  ⟨by decide, by
    obtain ⟨w0, w1, w2, hc0, hc1, hc2, ho⟩ :=
      readSerialNumber_assembly busSN st0 0 (by decide)
    rw [ho]
    have he0 : checkCrc (busSN.stream.getD st0.pos 0)
        (busSN.stream.getD (st0.pos + 1) 0)
        (busSN.stream.getD (st0.pos + 2) 0) = some 0x1234 := by decide
    have he1 : checkCrc (busSN.stream.getD (st0.pos + 3) 0)
        (busSN.stream.getD (st0.pos + 4) 0)
        (busSN.stream.getD (st0.pos + 5) 0) = some 0x5678 := by decide
    have he2 : checkCrc (busSN.stream.getD (st0.pos + 6) 0)
        (busSN.stream.getD (st0.pos + 7) 0)
        (busSN.stream.getD (st0.pos + 8) 0) = some 0x9ABC := by decide
    rw [he0] at hc0
    rw [he1] at hc1
    rw [he2] at hc2
    have e0 := Option.some.inj hc0
    have e1 := Option.some.inj hc1
    have e2 := Option.some.inj hc2
    subst e0
    subst e1
    subst e2
    decide⟩

/-- C10: `readMeasurement` leaves all three caller outputs unchanged on
every failure path (send failure, short read, or any CRC mismatch). -/
theorem readMeasurement_outputs_unchanged (bus : Bus) (st : St) (co2 : Nat)
    (t rh : ℚ) (h : (readMeasurement bus st co2 t rh).1 = false) :
    (readMeasurement bus st co2 t rh).2.1 = co2 ∧
      (readMeasurement bus st co2 t rh).2.2.1 = t ∧
      (readMeasurement bus st co2 t rh).2.2.2.1 = rh := by
  simp only [readMeasurement, sendCommand_eq, reqFrom, delayMs, rdN9_eq,
    List.getD_cons_zero, List.getD_cons_succ] at h ⊢
  cases hok : bus.endRes st.tx == 0
  · exact ⟨by simp, by simp, by simp⟩
  · rw [hok] at h
    simp only [Bool.not_true, Bool.false_eq_true, if_false] at h ⊢
    by_cases hav : bus.avail (st.time + 5) < 9
    · rw [if_pos hav]
      exact ⟨by simp, by simp, by simp⟩
    · rw [if_neg hav] at h ⊢
      rcases hc0 : checkCrc (bus.stream.getD st.pos 0)
          (bus.stream.getD (st.pos + 1) 0) (bus.stream.getD (st.pos + 2) 0)
        with _ | co2r
      · exact ⟨by simp, by simp, by simp⟩
      · rcases hc1 : checkCrc (bus.stream.getD (st.pos + 3) 0)
            (bus.stream.getD (st.pos + 4) 0) (bus.stream.getD (st.pos + 5) 0)
          with _ | tr
        · exact ⟨by simp, by simp, by simp⟩
        · rcases hc2 : checkCrc (bus.stream.getD (st.pos + 6) 0)
              (bus.stream.getD (st.pos + 7) 0) (bus.stream.getD (st.pos + 8) 0)
            with _ | rhr
          · exact ⟨by simp, by simp, by simp⟩
          · rw [hc0, hc1, hc2] at h
            simp at h

/-- Witness for C10 on a transport whose write transaction fails. -/
theorem readMeasurement_outputs_unchanged_witness :
    (readMeasurement (Bus.mk (fun _ => 1) (fun _ => 0) []) st0 7 8 9).1 = false ∧
      ((readMeasurement (Bus.mk (fun _ => 1) (fun _ => 0) []) st0 7 8 9).2.1 = 7 ∧
        (readMeasurement (Bus.mk (fun _ => 1) (fun _ => 0) []) st0 7 8 9).2.2.1 = 8 ∧
        (readMeasurement (Bus.mk (fun _ => 1) (fun _ => 0) []) st0 7 8 9).2.2.2.1 = 9) :=
  ⟨by decide, readMeasurement_outputs_unchanged (Bus.mk (fun _ => 1) (fun _ => 0) [])
    st0 7 8 9 (by decide)⟩

/-- `encodeOffsetRaw` at the four spec'd offsets, computed. -/
theorem encodeOffsetRaw_values :
    encodeOffsetRaw 0 = 0 ∧ encodeOffsetRaw (3 / 2) = 561 ∧
      encodeOffsetRaw 20 = 7489 ∧ encodeOffsetRaw (-10) = 61792 := by
  refine ⟨?_, ?_, ?_, ?_⟩
  · have h1 : ((0 : ℚ) / 175 * 65535).num = 0 := by norm_num
    have h2 : ((0 : ℚ) / 175 * 65535).den = 1 := by norm_num
    rw [encodeOffsetRaw, ratTrunc, h1, h2]
    decide
  · have h1 : ((3 / 2 : ℚ) / 175 * 65535).num = 39321 := by norm_num
    have h2 : ((3 / 2 : ℚ) / 175 * 65535).den = 70 := by norm_num
    rw [encodeOffsetRaw, ratTrunc, h1, h2]
    decide
  · have h1 : ((20 : ℚ) / 175 * 65535).num = 52428 := by norm_num
    have h2 : ((20 : ℚ) / 175 * 65535).den = 7 := by norm_num
    rw [encodeOffsetRaw, ratTrunc, h1, h2]
    decide
  · have h1 : ((-10 : ℚ) / 175 * 65535).num = -26214 := by norm_num
    have h2 : ((-10 : ℚ) / 175 * 65535).den = 7 := by norm_num
    rw [encodeOffsetRaw, ratTrunc, h1, h2]
    decide

/-- C5 counterexample: encoding −10 °C through the setter's `uint16_t`
cast and decoding through the getter yields ≈165 °C, about 175 °C away
from −10 °C and far outside one LSB (175/65535 ≈ 0.0027 °C) — a 16-bit
unsigned raw word can only decode to a value in `[0, 175]`. -/
theorem offset_roundtrip_neg10_fails :
    ¬ |decodeOffset (encodeOffsetRaw (-10)) - (-10)| ≤ 175 / 65535 := by
  rw [encodeOffsetRaw_values.2.2.2, abs_le]
  intro hcon
  have h2 := hcon.2
  norm_num [decodeOffset] at h2

/-- C5 (amended): for offsets 0, 1.5 and 20 °C the encode/decode round
trip through `encodeOffsetRaw` and `decodeOffset` recovers the offset
within one LSB of quantisation (175/65535 ≈ 0.0027 °C); for −10 °C it
fails (see the counterexample). -/
theorem offset_roundtrip_good :
    |decodeOffset (encodeOffsetRaw 0) - 0| ≤ 175 / 65535 ∧
      |decodeOffset (encodeOffsetRaw (3 / 2)) - 3 / 2| ≤ 175 / 65535 ∧
      |decodeOffset (encodeOffsetRaw 20) - 20| ≤ 175 / 65535 := by
  rw [encodeOffsetRaw_values.1, encodeOffsetRaw_values.2.1,
    encodeOffsetRaw_values.2.2.1]
  refine ⟨?_, ?_, ?_⟩ <;> rw [abs_le] <;> constructor <;> norm_num [decodeOffset]

theorem txCommand_eq (bus : Bus) (st : St) (cmd : Nat) (ws : List Nat) :
    txCommand bus st cmd ws
      = (bus.endRes st.tx == 0,
          { st with
              tx := st.tx + 1,
              evs := st.evs ++ Ev.wr ((cmd >>> 8) % 256) :: Ev.wr (cmd &&& 0xFF)
                :: (ws.map wordEvs).flatten }) := by
  simp [txCommand, txWords_evs, endTx, wrB]

theorem readNBody_evs_mono (bus : Bus) (st1 : St) (out : List Nat)
    (nwords : Nat) :
    ∃ tl, (readNBody bus st1 out nwords).2.2.evs = st1.evs ++ tl := by
  obtain ⟨b, dt, tl, he⟩ := pollLoop_state bus (nwords * 3) st1.time 102 st1
  simp only [readNBody, he]
  cases b
  · exact ⟨tl, by simp⟩
  · obtain ⟨tl2, h2⟩ := rdWords_evs_mono bus nwords 0 out
      { st1 with
          time := st1.time + dt,
          evs := st1.evs ++ tl }
    refine ⟨tl ++ tl2, ?_⟩
    simp only [Bool.not_true, Bool.false_eq_true, if_false]
    rw [h2]
    simp

theorem readNData_evs_mono (bus : Bus) (st : St) (cmd : Nat) (out : List Nat)
    (nwords : Nat) :
    ∃ tl, (readNData bus st cmd out nwords).2.2.evs = st.evs ++ tl := by
  simp only [readNData, sendCommand_eq]
  cases hok : bus.endRes st.tx == 0
  · exact ⟨[Ev.wr ((cmd >>> 8) % 256), Ev.wr (cmd &&& 0xFF)], by simp⟩
  · obtain ⟨tl, h2⟩ := readNBody_evs_mono bus
      (reqFrom (delayMs { st with
          tx := st.tx + 1,
          evs := st.evs ++ [Ev.wr ((cmd >>> 8) % 256), Ev.wr (cmd &&& 0xFF)] } 1)
        (nwords * 3)) out nwords
    refine ⟨[Ev.wr ((cmd >>> 8) % 256), Ev.wr (cmd &&& 0xFF), Ev.d 1,
      Ev.req (nwords * 3)] ++ tl, ?_⟩
    simp only [Bool.not_true, Bool.false_eq_true, if_false]
    rw [h2]
    simp [reqFrom, delayMs]

/-- C9 (amended): `performForcedRecalibration`, when asked for the result
word, imposes the fixed 500 ms host-side wait between the command write
(command bytes then the reference word with its CRC) and the result read —
every later event, in particular every byte read, comes after `Ev.d 500`.
`performSelfTest` does not impose such a wait (see the counterexample). -/
theorem performForcedRecalibration_waits_500 (bus : Bus) (st : St)
    (ref frc0 : Nat) (hok : bus.endRes st.tx = 0) :
    ∃ tail, (performForcedRecalibration bus st ref true frc0).2.2.evs
        = st.evs ++ [Ev.wr ((PERFORM_FORCED_RECALIBRATION_CMD_ID >>> 8) % 256),
            Ev.wr (PERFORM_FORCED_RECALIBRATION_CMD_ID &&& 0xFF)]
          ++ wordEvs ref ++ [Ev.d 500] ++ tail := by
  have hb : (bus.endRes st.tx == 0) = true := by simp [hok]
  simp only [performForcedRecalibration, writeCommand, txCommand_eq, hb,
    Bool.not_true, Bool.false_eq_true, if_false, eq_self_iff_true, if_true,
    List.map_cons, List.map_nil, List.flatten_cons, List.flatten_nil,
    List.append_nil]
  obtain ⟨tl, h2⟩ := readNData_evs_mono bus
    (delayMs { st with
        tx := st.tx + 1,
        evs := st.evs ++ Ev.wr ((PERFORM_FORCED_RECALIBRATION_CMD_ID >>> 8) % 256)
          :: Ev.wr (PERFORM_FORCED_RECALIBRATION_CMD_ID &&& 0xFF)
          :: wordEvs ref } 500)
    PERFORM_FORCED_RECALIBRATION_CMD_ID [frc0] 1
  refine ⟨tl, ?_⟩
  cases hr : (readNData bus
      (delayMs { st with
          tx := st.tx + 1,
          evs := st.evs ++ Ev.wr ((PERFORM_FORCED_RECALIBRATION_CMD_ID >>> 8) % 256)
            :: Ev.wr (PERFORM_FORCED_RECALIBRATION_CMD_ID &&& 0xFF)
            :: wordEvs ref } 500)
      PERFORM_FORCED_RECALIBRATION_CMD_ID [frc0] 1).1
  · simp only [Bool.not_false, eq_self_iff_true, if_true]
    rw [h2]
    simp [delayMs]
  · simp only [Bool.not_true, Bool.false_eq_true, if_false]
    rw [h2]
    simp [delayMs]

/-- C9 counterexample: on a fully successful transport, `performSelfTest`
reads its result word with no 500 ms wait — its complete trace is the two
command bytes, the 1 ms settle, the 3-byte request and three reads, and
contains no `Ev.d 500`. -/
theorem performSelfTest_no_500ms_wait :
    (performSelfTest busOK st0 0).1 = true ∧
      (performSelfTest busOK st0 0).2.2.evs
        = [Ev.wr 0x36, Ev.wr 0x39, Ev.d 1, Ev.req 3, Ev.rd, Ev.rd, Ev.rd] ∧
      Ev.d 500 ∉ (performSelfTest busOK st0 0).2.2.evs := by
  refine ⟨by decide, by decide, by decide⟩

/-- Witness for the amended C9 on a concrete successful transport. -/
theorem performForcedRecalibration_waits_500_witness :
    busOK.endRes st0.tx = 0 ∧
      (∃ tail, (performForcedRecalibration busOK st0 420 true 0).2.2.evs
          = st0.evs ++ [Ev.wr ((PERFORM_FORCED_RECALIBRATION_CMD_ID >>> 8) % 256),
              Ev.wr (PERFORM_FORCED_RECALIBRATION_CMD_ID &&& 0xFF)]
            ++ wordEvs 420 ++ [Ev.d 500] ++ tail) :=
  ⟨by decide, performForcedRecalibration_waits_500 busOK st0 420 0 (by decide)⟩


theorem checkCrc_some {b0 b1 c w : Nat} (h : checkCrc b0 b1 c = some w) :
    crc8 b0 b1 = c := by
  unfold checkCrc at h
  by_cases hc : crc8 b0 b1 = c
  · exact hc
  · rw [if_neg hc] at h
    exact absurd h (by simp)

/-- If `readMeasurement` reports success, each of the three received
3-byte groups had a valid CRC. -/
theorem readMeasurement_true_valid (bus : Bus) (st : St) (co2 : Nat)
    (t rh : ℚ) (h : (readMeasurement bus st co2 t rh).1 = true) :
    ∀ k, k < 3 →
      crc8 (bus.stream.getD (st.pos + 3 * k) 0)
          (bus.stream.getD (st.pos + 3 * k + 1) 0)
        = bus.stream.getD (st.pos + 3 * k + 2) 0 := by
  intro k hk
  simp only [readMeasurement, sendCommand_eq, reqFrom, delayMs, rdN9_eq,
    List.getD_cons_zero, List.getD_cons_succ] at h
  cases hok : bus.endRes st.tx == 0
  · rw [hok] at h
    simp at h
  · rw [hok] at h
    simp only [Bool.not_true, Bool.false_eq_true, if_false] at h
    by_cases hav : bus.avail (st.time + 5) < 9
    · rw [if_pos hav] at h
      simp at h
    · rw [if_neg hav] at h
      rcases hc0 : checkCrc (bus.stream.getD st.pos 0)
          (bus.stream.getD (st.pos + 1) 0) (bus.stream.getD (st.pos + 2) 0)
        with _ | co2r
      · rw [hc0] at h; simp at h
      · rcases hc1 : checkCrc (bus.stream.getD (st.pos + 3) 0)
            (bus.stream.getD (st.pos + 4) 0) (bus.stream.getD (st.pos + 5) 0)
          with _ | tr
        · rw [hc0, hc1] at h; simp at h
        · rcases hc2 : checkCrc (bus.stream.getD (st.pos + 6) 0)
              (bus.stream.getD (st.pos + 7) 0) (bus.stream.getD (st.pos + 8) 0)
            with _ | rhr
          · rw [hc0, hc1, hc2] at h; simp at h
          · interval_cases k
            · simpa using checkCrc_some hc0
            · simpa using checkCrc_some hc1
            · simpa using checkCrc_some hc2

/-- C3 (amended): a CRC mismatch on any received word group makes the
whole multi-word read return failure — `readNData` for any of its `nwords`
groups, and `readMeasurement` for any of its three groups — though words
of a `readNData` validated before the mismatch may already have been
stored in the caller's buffer. -/
theorem multiword_read_fails_on_crc_mismatch (bus : Bus) (st : St) (cmd : Nat)
    (out : List Nat) (nwords j : Nat) (hj : j < nwords)
    (hbad : crc8 (bus.stream.getD (st.pos + 3 * j) 0)
        (bus.stream.getD (st.pos + 3 * j + 1) 0)
      ≠ bus.stream.getD (st.pos + 3 * j + 2) 0) :
    (readNData bus st cmd out nwords).1 = false ∧
      ∀ (co2 : Nat) (t rh : ℚ) (k : Nat), k < 3 →
        crc8 (bus.stream.getD (st.pos + 3 * k) 0)
            (bus.stream.getD (st.pos + 3 * k + 1) 0)
          ≠ bus.stream.getD (st.pos + 3 * k + 2) 0 →
        (readMeasurement bus st co2 t rh).1 = false := by
  constructor
  · cases hres : (readNData bus st cmd out nwords).1 with
    | false => rfl
    | true => exact absurd (readNData_true_valid bus st cmd out nwords hres j hj) hbad
  · intro co2 t rh k hk hbadk
    cases hres : (readMeasurement bus st co2 t rh).1 with
    | false => rfl
    | true => exact absurd (readMeasurement_true_valid bus st co2 t rh hres k hk) hbadk

/-- Witness for the amended C3 on the concrete corrupted bus. -/
theorem multiword_read_fails_on_crc_mismatch_witness :
    (1 : Nat) < 2 ∧
      crc8 (busC3.stream.getD (st0.pos + 3 * 1) 0)
          (busC3.stream.getD (st0.pos + 3 * 1 + 1) 0)
        ≠ busC3.stream.getD (st0.pos + 3 * 1 + 2) 0 ∧
      ((readNData busC3 st0 0xEC05 [7, 7] 2).1 = false ∧
        ∀ (co2 : Nat) (t rh : ℚ) (k : Nat), k < 3 →
          crc8 (busC3.stream.getD (st0.pos + 3 * k) 0)
              (busC3.stream.getD (st0.pos + 3 * k + 1) 0)
            ≠ busC3.stream.getD (st0.pos + 3 * k + 2) 0 →
          (readMeasurement busC3 st0 co2 t rh).1 = false) :=
  ⟨by decide, by decide,
    multiword_read_fails_on_crc_mismatch busC3 st0 0xEC05 [7, 7] 2 1
      (by decide) (by decide)⟩

end SCD4x
